import Mathlib

/-!
Verification of the defect-registry reconciliation module of the
Gas_Leakage_AIDetection repository.

The definitions below are a shallow embedding of the TypeScript source:

* `getRiskLevel`, `defectScenarios`, `generateLeakageStatus`,
  `getStaticDefectRegistry`, `generateDefectId`,
  `updateDefectRegistryWithDetections`, `getInitialDefectRegistry`
  embed the detection-utilities module (the shared detection utilities file).
* `DetectionService.getLeakageStatus` embeds the snapshot-acquisition call of
  the frontend `DetectionService`.

Modelling conventions:

* optional TypeScript fields (`location?: string`, `lastDetected?: string`)
  become `Option String`; the JavaScript value `undefined` is `none`, and
  `===` on `string | undefined` values is `Option` equality;
* `Math.random()`-derived draws are passed in explicitly: a `List Nat` of
  confidence draws (each used modulo 10, the image of
  `Math.floor(Math.random() * 10)`), a `GenDraws` record for the synthetic
  generator;
* `new Date().toISOString()` and its date part are the explicit arguments
  `currentTimestamp` and `currentDate`; `new Date(s).getTime()` is an explicit
  argument `timeOf : String → Int`;
* the module-level mutable id counter becomes explicit state: functions take
  the counter and return the updated counter;
* `Array.prototype.sort`, which is a stable sort by a consistent comparator
  (hence has a unique result), is `List.insertionSort`, a stable sort, on the
  total preorder `compareDefects · · ≤ 0`.
-/

namespace GasLeak

/-- Embeds the `DefectDetection` interface: one raw observation from one
sensing subsystem.  `location?: string` becomes `Option String`. -/
structure DefectDetection where
  defectType : String
  sign : String
  source : String
  location : Option String := none
deriving DecidableEq

/-- Status literal of a sensing subsystem: `'ok' | 'detected'`. -/
inductive SysStatus where
  | ok
  | detected
deriving DecidableEq

/-- One subsystem block of the `LeakageDetection` interface. -/
structure SubsystemReading where
  status : SysStatus
  detections : List DefectDetection
deriving DecidableEq

/-- Embeds the `LeakageDetection` interface (a detection snapshot). -/
structure LeakageDetection where
  controlSystem : SubsystemReading
  drone : SubsystemReading
  totalLeakages : Nat
deriving DecidableEq

/-- Risk level literal: `'critical' | 'warning' | 'low'`. -/
inductive RiskLevel where
  | critical
  | warning
  | low
deriving DecidableEq

/-- Registry status literal: `'pending' | 'progress' | 'resolved'`. -/
inductive DefectStatus where
  | pending
  | progress
  | resolved
deriving DecidableEq

/-- Embeds the `DefectRegistryItem` interface.  The `location` field is
`Option String`: the source writes `detections.controlSystem.location!` into
it, and that non-null assertion does not stop an absent (`undefined`) location
from flowing through at run time, so the runtime value space is
`string | undefined`. -/
structure DefectRegistryItem where
  id : String
  defectType : String
  location : Option String
  riskLevel : RiskLevel
  riskLabel : String
  riskIcon : String
  detectedDate : String
  lastDetected : Option String := none
  status : DefectStatus
  controlSystemSign : String
  controlSystemSource : String
  droneSign : String
  droneSource : String
  aiConfidence : Nat
deriving DecidableEq

/-- Result record of `getRiskLevel`. -/
structure RiskInfo where
  level : RiskLevel
  label : String
  icon : String
  color : String
  action : String
deriving DecidableEq

/-- The static `riskMap` object literal of `getRiskLevel`, as a keyed list. -/
def riskMap : List (String × RiskInfo) :=
  [ ("Major/Sudden Leak",
      { level := .critical, label := "Critical", icon := "游댮",
        color := "#ff4757", action := "Immediate shutdown & emergency response" }),
    ("Mechanical Damage",
      { level := .critical, label := "Critical", icon := "游댮",
        color := "#ff4757", action := "Immediate preventive action" }),
    ("Minor/Gradual Leak",
      { level := .warning, label := "Medium", icon := "游",
        color := "#ffa502", action := "Enhanced monitoring, repair planning" }),
    ("Poor Pipe Support",
      { level := .warning, label := "Medium", icon := "游",
        color := "#ffa502", action := "Structural intervention" }),
    ("Corrosion & Erosion",
      { level := .low, label := "Low", icon := "游릭",
        color := "#1dd1a1", action := "Scheduled maintenance" }),
    ("Insulation/Coating Failure",
      { level := .low, label := "Low", icon := "游릭",
        color := "#1dd1a1", action := "Preventive maintenance" }) ]

/-- The fallback value `riskMap[defectType] || {...}` returns for an unknown
defect type. -/
def unknownRisk : RiskInfo :=
  { level := .warning, label := "Unknown", icon := "丘멆잺",
    color := "#ffa502", action := "Assessment required" }

/-- Embeds `getRiskLevel`: lookup in the static `riskMap`, falling back to the
`Unknown` record for any unrecognized defect type. -/
def getRiskLevel (defectType : String) : RiskInfo :=
  (riskMap.lookup defectType).getD unknownRisk

/-- One entry of the `defectScenarios` table: a defect type together with its
possible control-system and drone signatures. -/
structure DefectScenario where
  type : String
  controlSystem : List (String × String)
  drone : List (String × String)
deriving DecidableEq

/-- Embeds the `defectScenarios` constant (signature pairs are
`(sign, source)`). -/
def defectScenarios : List DefectScenario :=
  [ { type := "Major/Sudden Leak",
      controlSystem :=
        [ ("High pressure drop", "PT"),
          ("Imbalance mass flow", "FT") ],
      drone :=
        [ ("Direct visual sighting of spill", "Visible spectrum camera"),
          ("Detection of gas cloud", "Spectroscopic sensor"),
          ("Distinct thermal anomaly on the ground", "Thermal imaging camera") ] },
    { type := "Minor/Gradual Leak",
      controlSystem :=
        [ ("Small, persistent deviation in mass balance", "FT"),
          ("Slow pressure decline", "PT") ],
      drone :=
        [ ("Gradual discoloration", "Visible spectrum camera"),
          ("Consistently elevated gas concentration at a specific point", "Spectroscopic sensor"),
          ("Long-term changes in soil temperature", "Thermal imaging camera") ] },
    { type := "Corrosion & Erosion",
      controlSystem :=
        [ ("Decrease in pressure", "PT") ],
      drone :=
        [ ("Visual signs of rust, coating damage, or corrosion on exposed pipe", "Visible spectrum camera") ] },
    { type := "Mechanical Damage",
      controlSystem := [],
      drone :=
        [ ("Clear identification of damage: Dents, cracks", "Visible spectrum camera"),
          ("Detection of unauthorized activities (excavation, construction)", "Visible spectrum camera") ] },
    { type := "Insulation/Coating Failure",
      controlSystem :=
        [ ("Increased heat loss", "TT") ],
      drone :=
        [ ("Detection of insulation failures", "Visible spectrum camera"),
          ("Hot or cold spots along the pipe", "Thermal imaging camera") ] },
    { type := "Poor Pipe Support",
      controlSystem :=
        [ ("Unusual vibrations", "Seismometer") ],
      drone :=
        [ ("Visual identification of loose, shifted, or broken pipe supports", "Visible spectrum camera"),
          ("Identification of soil erosion or subsidence under the pipe", "Visible spectrum camera") ] } ]

/-- The fixed location list of `generateLeakageStatus`. -/
def genLocations : List String :=
  [ "Section A-B", "Section B-C", "Section C-D", "Branch Line", "Station Area",
    "Main Pipeline KM 12.5", "Main Pipeline KM 18.3" ]

/-- `defectScenarios.filter(d => d.controlSystem.length > 0 && d.drone.length > 0)`
from `generateLeakageStatus`: only defects with signatures for both systems. -/
def defectsWithBothSystems : List DefectScenario :=
  defectScenarios.filter fun d => d.controlSystem.length > 0 && d.drone.length > 0

/-- The outcome of the `Math.random()` draws consumed by one call of
`generateLeakageStatus`: the issue coin flip, the leakage-count draw, and for
each loop iteration the scenario, location and signature index draws.  Index
draws are reduced modulo the relevant list length, the exact image of
`Math.floor(Math.random() * length)`. -/
structure GenDraws where
  hasIssue : Bool
  numDraw : Nat
  scenarioDraw : Nat → Nat
  locationDraw : Nat → Nat
  controlSigDraw : Nat → Nat
  droneSigDraw : Nat → Nat

/-- Junk defaults used only to make list indexing total; every index used by
the generator is provably within range, so they are never returned. -/
def emptyScenario : DefectScenario :=
  { type := "", controlSystem := [], drone := [] }

/-- One iteration of the `generateLeakageStatus` loop: draws a scenario from
`defectsWithBothSystems`, a location, and one signature per subsystem, and
returns the synchronized control-system and drone detections. -/
def genPairAt (r : GenDraws) (i : Nat) : DefectDetection × DefectDetection :=
  let ds := defectsWithBothSystems
  let selectedDefect := ds.getD (r.scenarioDraw i % ds.length) emptyScenario
  let location := genLocations.getD (r.locationDraw i % genLocations.length) ""
  let csig := selectedDefect.controlSystem.getD
    (r.controlSigDraw i % selectedDefect.controlSystem.length) ("", "")
  let dsig := selectedDefect.drone.getD
    (r.droneSigDraw i % selectedDefect.drone.length) ("", "")
  (({ defectType := selectedDefect.type, sign := csig.1, source := csig.2,
      location := some location } : DefectDetection),
   ({ defectType := selectedDefect.type, sign := dsig.1, source := dsig.2,
      location := some location } : DefectDetection))

/-- Embeds `generateLeakageStatus`.  The random draws are the explicit
`GenDraws` argument; everything else follows the source line by line: when an
issue is generated, 1-3 scenarios are drawn from `defectsWithBothSystems`, and
both subsystems get a detection with the same defect type and location. -/
def generateLeakageStatus (r : GenDraws) : LeakageDetection :=
  if !r.hasIssue then
    { controlSystem := { status := .ok, detections := [] },
      drone := { status := .ok, detections := [] },
      totalLeakages := 0 }
  else
    let numLeakages := r.numDraw % 3 + 1
    let pairs := (List.range numLeakages).map (genPairAt r)
    let controlSystemDetections := pairs.map Prod.fst
    let droneDetections := pairs.map Prod.snd
    { controlSystem :=
        { status := if controlSystemDetections.length > 0 then .detected else .ok,
          detections := controlSystemDetections },
      drone :=
        { status := if droneDetections.length > 0 then .detected else .ok,
          detections := droneDetections },
      totalLeakages := numLeakages }

/-- Embeds `getStaticDefectRegistry`: the twelve pre-seeded defects. -/
def getStaticDefectRegistry : List DefectRegistryItem :=
  [ { id := "DEF-001", defectType := "Major/Sudden Leak", location := some "Section A-B",
      riskLevel := .critical, riskLabel := "Critical", riskIcon := "游댮",
      detectedDate := "2024-11-15", status := .resolved,
      controlSystemSign := "High pressure drop", controlSystemSource := "PT",
      droneSign := "Direct visual sighting of spill", droneSource := "Visible spectrum camera",
      aiConfidence := 92 },
    { id := "DEF-002", defectType := "Major/Sudden Leak", location := some "Main Pipeline KM 12.5",
      riskLevel := .critical, riskLabel := "Critical", riskIcon := "游댮",
      detectedDate := "2024-10-22", status := .resolved,
      controlSystemSign := "Imbalance mass flow", controlSystemSource := "FT",
      droneSign := "Detection of gas cloud", droneSource := "Spectroscopic sensor",
      aiConfidence := 89 },
    { id := "DEF-003", defectType := "Mechanical Damage", location := some "Section B-C",
      riskLevel := .critical, riskLabel := "Critical", riskIcon := "游댮",
      detectedDate := "2024-09-18", status := .resolved,
      controlSystemSign := "N/A", controlSystemSource := "N/A",
      droneSign := "Clear identification of damage: Dents, cracks",
      droneSource := "Visible spectrum camera", aiConfidence := 87 },
    { id := "DEF-004", defectType := "Mechanical Damage", location := some "Branch Line",
      riskLevel := .critical, riskLabel := "Critical", riskIcon := "游댮",
      detectedDate := "2024-08-05", status := .resolved,
      controlSystemSign := "N/A", controlSystemSource := "N/A",
      droneSign := "Detection of unauthorized activities (excavation, construction)",
      droneSource := "Visible spectrum camera", aiConfidence := 85 },
    { id := "DEF-005", defectType := "Minor/Gradual Leak", location := some "Section C-D",
      riskLevel := .warning, riskLabel := "Medium", riskIcon := "游",
      detectedDate := "2024-07-12", status := .resolved,
      controlSystemSign := "Small, persistent deviation in mass balance",
      controlSystemSource := "FT",
      droneSign := "Gradual discoloration", droneSource := "Visible spectrum camera",
      aiConfidence := 91 },
    { id := "DEF-006", defectType := "Minor/Gradual Leak", location := some "Main Pipeline KM 18.3",
      riskLevel := .warning, riskLabel := "Medium", riskIcon := "游",
      detectedDate := "2024-06-28", status := .resolved,
      controlSystemSign := "Slow pressure decline", controlSystemSource := "PT",
      droneSign := "Consistently elevated gas concentration at a specific point",
      droneSource := "Spectroscopic sensor", aiConfidence := 88 },
    { id := "DEF-007", defectType := "Poor Pipe Support", location := some "Station Area",
      riskLevel := .warning, riskLabel := "Medium", riskIcon := "游",
      detectedDate := "2024-05-14", status := .resolved,
      controlSystemSign := "Unusual vibrations", controlSystemSource := "Seismometer",
      droneSign := "Visual identification of loose, shifted, or broken pipe supports",
      droneSource := "Visible spectrum camera", aiConfidence := 86 },
    { id := "DEF-008", defectType := "Poor Pipe Support", location := some "Section A-B",
      riskLevel := .warning, riskLabel := "Medium", riskIcon := "游",
      detectedDate := "2024-04-20", status := .resolved,
      controlSystemSign := "Unusual vibrations", controlSystemSource := "Seismometer",
      droneSign := "Identification of soil erosion or subsidence under the pipe",
      droneSource := "Visible spectrum camera", aiConfidence := 84 },
    { id := "DEF-009", defectType := "Corrosion & Erosion", location := some "Section B-C",
      riskLevel := .low, riskLabel := "Low", riskIcon := "游릭",
      detectedDate := "2024-03-08", status := .resolved,
      controlSystemSign := "Decrease in pressure", controlSystemSource := "PT",
      droneSign := "Visual signs of rust, coating damage, or corrosion on exposed pipe",
      droneSource := "Visible spectrum camera", aiConfidence := 90 },
    { id := "DEF-010", defectType := "Corrosion & Erosion", location := some "Main Pipeline KM 12.5",
      riskLevel := .low, riskLabel := "Low", riskIcon := "游릭",
      detectedDate := "2024-02-15", status := .resolved,
      controlSystemSign := "Decrease in pressure", controlSystemSource := "PT",
      droneSign := "Visual signs of rust, coating damage, or corrosion on exposed pipe",
      droneSource := "Visible spectrum camera", aiConfidence := 87 },
    { id := "DEF-011", defectType := "Insulation/Coating Failure", location := some "Section C-D",
      riskLevel := .low, riskLabel := "Low", riskIcon := "游릭",
      detectedDate := "2024-01-22", status := .resolved,
      controlSystemSign := "Increased heat loss", controlSystemSource := "TT",
      droneSign := "Detection of insulation failures", droneSource := "Visible spectrum camera",
      aiConfidence := 89 },
    { id := "DEF-012", defectType := "Insulation/Coating Failure", location := some "Branch Line",
      riskLevel := .low, riskLabel := "Low", riskIcon := "游릭",
      detectedDate := "2023-12-10", status := .resolved,
      controlSystemSign := "Increased heat loss", controlSystemSource := "TT",
      droneSign := "Hot or cold spots along the pipe", droneSource := "Thermal imaging camera",
      aiConfidence := 85 } ]

/-- `MAX_DEFECT_REGISTRY_SIZE`. -/
def MAX_DEFECT_REGISTRY_SIZE : Nat := 15

/-- Little-endian value of a decimal digit list; inverse of `decDigits`. -/
def ofDigitsLE : List Nat → Nat
  | [] => 0
  | d :: r => d + 10 * ofDigitsLE r

/-- Little-endian decimal digits of `n` (fuel-based; `fuel ≥ n` suffices). -/
def decDigits (fuel : Nat) (n : Nat) : List Nat :=
  match fuel with
  | 0 => []
  | f + 1 => if n = 0 then [] else n % 10 :: decDigits f (n / 10)

/-- Embeds the JavaScript conversion `String(n)` for a non-negative integer:
its decimal digit string. -/
def jsNumToString (n : Nat) : String :=
  if n = 0 then "0"
  else String.mk (((decDigits n n).map fun d => Char.ofNat (48 + d)).reverse)

/-- Embeds `s.padStart(3, '0')`. -/
def padStart3 (s : String) : String :=
  if 3 ≤ s.length then s else String.mk (List.replicate (3 - s.length) '0') ++ s

/-- The initial value of the module-level `defectIdCounter`. -/
def initialDefectIdCounter : Nat := 100

/-- Embeds `generateDefectId`: increments the counter and formats it as
`DEF-` followed by the 3-digit zero-padded counter value.  The module-level
counter is threaded explicitly: the function takes the current counter and
returns the id together with the updated counter. -/
def generateDefectId (counter : Nat) : String × Nat :=
  let counter' := counter + 1
  ("DEF-" ++ padStart3 (jsNumToString counter'), counter')

/-- The ids produced by `n` successive `generateDefectId` calls starting from
counter value `c`. -/
def runGenerate : Nat → Nat → List String
  | 0, _ => []
  | n + 1, c =>
    let r := generateDefectId c
    r.1 :: runGenerate n r.2

/-- JavaScript template interpolation of a `string | undefined` value:
`undefined` prints as the string `undefined`. -/
def strOfLocation : Option String → String
  | some s => s
  | none => "undefined"

/-- The grouping key `` `${detection.location}-${detection.defectType}` `` of
`updateDefectRegistryWithDetections`. -/
def detectionKey (d : DefectDetection) : String :=
  strOfLocation d.location ++ "-" ++ d.defectType

/-- The value type of `locationDefectMap`: the optional control-system and
drone detections collected under one key. -/
structure PairedDetections where
  controlSystem : Option DefectDetection := none
  drone : Option DefectDetection := none
deriving DecidableEq

/-- `if (!map.has(key)) map.set(key, {}); map.get(key)!.controlSystem = d`
on an insertion-ordered map represented as a keyed list. -/
def mapSetControl (m : List (String × PairedDetections)) (k : String)
    (d : DefectDetection) : List (String × PairedDetections) :=
  match m with
  | [] => [(k, { controlSystem := some d })]
  | (k', e) :: rest =>
    if k' = k then (k', { e with controlSystem := some d }) :: rest
    else (k', e) :: mapSetControl rest k d

/-- `if (!map.has(key)) map.set(key, {}); map.get(key)!.drone = d`. -/
def mapSetDrone (m : List (String × PairedDetections)) (k : String)
    (d : DefectDetection) : List (String × PairedDetections) :=
  match m with
  | [] => [(k, { drone := some d })]
  | (k', e) :: rest =>
    if k' = k then (k', { e with drone := some d }) :: rest
    else (k', e) :: mapSetDrone rest k d

/-- Builds `locationDefectMap`: first all control-system detections, then all
drone detections, keyed by `detectionKey`, in insertion order. -/
def buildLocationDefectMap (leakageStatus : LeakageDetection) :
    List (String × PairedDetections) :=
  let m1 := leakageStatus.controlSystem.detections.foldl
    (fun m d => mapSetControl m (detectionKey d) d) []
  leakageStatus.drone.detections.foldl
    (fun m d => mapSetDrone m (detectionKey d) d) m1

/-- The status conditional
`riskLevel === 'critical' ? 'pending' : riskLevel === 'warning' ? 'progress' : 'pending'`. -/
def autoStatus (level : RiskLevel) : DefectStatus :=
  if level = .critical then .pending
  else if level = .warning then .progress
  else .pending

/-- `Math.min(99, 85 + Math.floor(Math.random() * 10))` where the draw stream
supplies the value of `Math.floor(Math.random() * 10)` (reduced modulo 10). -/
def nextConfidence (draws : List Nat) : Nat × List Nat :=
  (min 99 (85 + draws.headD 0 % 10), draws.tail)

/-- `registry.findIndex(d => d.location === location && d.defectType === defectType)`. -/
def jsFindIndex (p : α → Bool) : List α → Option Nat
  | [] => none
  | a :: l => if p a then some 0 else (jsFindIndex p l).map (· + 1)

/-- The update-in-place object spread of the matched registry entry. -/
def updatedItem (old : DefectRegistryItem) (cs dr : DefectDetection)
    (currentTimestamp currentDate : String) (conf : Nat) : DefectRegistryItem :=
  { old with
    detectedDate := currentDate,
    lastDetected := some currentTimestamp,
    status := autoStatus (getRiskLevel cs.defectType).level,
    controlSystemSign := cs.sign,
    controlSystemSource := cs.source,
    droneSign := dr.sign,
    droneSource := dr.source,
    aiConfidence := conf }

/-- The `newDefect` object literal pushed for an unmatched agreeing detection. -/
def newItem (newId : String) (cs dr : DefectDetection)
    (currentTimestamp currentDate : String) (conf : Nat) : DefectRegistryItem :=
  { id := newId,
    defectType := cs.defectType,
    location := cs.location,
    riskLevel := (getRiskLevel cs.defectType).level,
    riskLabel := (getRiskLevel cs.defectType).label,
    riskIcon := (getRiskLevel cs.defectType).icon,
    detectedDate := currentDate,
    lastDetected := some currentTimestamp,
    status := autoStatus (getRiskLevel cs.defectType).level,
    controlSystemSign := cs.sign,
    controlSystemSource := cs.source,
    droneSign := dr.sign,
    droneSource := dr.source,
    aiConfidence := conf }

/-- The registry, id counter and remaining random draws threaded through the
`locationDefectMap.forEach` loop. -/
structure RecState where
  registry : List DefectRegistryItem
  counter : Nat
  draws : List Nat

/-- One iteration of the `locationDefectMap.forEach` body: if both systems
detected the key, update the matching registry entry in place or push a new
one; otherwise do nothing. -/
def processDetections (currentTimestamp currentDate : String) (st : RecState)
    (e : PairedDetections) : RecState :=
  match e.controlSystem, e.drone with
  | some cs, some dr =>
    let c := nextConfidence st.draws
    match jsFindIndex
        (fun d => d.location == cs.location && d.defectType == cs.defectType)
        st.registry with
    | some i =>
      { registry := st.registry.set i
          (updatedItem ((st.registry.get? i).getD (newItem "" cs dr "" "" 0))
            cs dr currentTimestamp currentDate c.1),
        counter := st.counter, draws := c.2 }
    | none =>
      let r := generateDefectId st.counter
      { registry := st.registry ++ [newItem r.1 cs dr currentTimestamp currentDate c.1],
        counter := r.2, draws := c.2 }
  | _, _ => st

/-- The sort comparator of `updateDefectRegistryWithDetections`, with
`new Date(s).getTime()` as the explicit argument `timeOf`. -/
def compareDefects (timeOf : String → Int) (a b : DefectRegistryItem) : Int :=
  match a.lastDetected, b.lastDetected with
  | some x, some y => timeOf y - timeOf x
  | some _, none => -1
  | none, some _ => 1
  | none, none => timeOf b.detectedDate - timeOf a.detectedDate

/-- The whole `locationDefectMap.forEach` loop, as a fold over the keyed list. -/
def foldProcess (currentTimestamp currentDate : String) (st : RecState)
    (m : List (String × PairedDetections)) : RecState :=
  m.foldl (fun st e => processDetections currentTimestamp currentDate st e.2) st

/-- Embeds `updateDefectRegistryWithDetections`.  Arguments added by the
embedding: `timeOf` models `new Date(s).getTime()`; `currentTimestamp` and
`currentDate` model `new Date().toISOString()` and its date part; `counter`
is the module-level `defectIdCounter` (returned updated); `draws` supplies the
`Math.floor(Math.random() * 10)` confidence draws. -/
def updateDefectRegistryWithDetections (timeOf : String → Int)
    (currentRegistry : List DefectRegistryItem) (leakageStatus : LeakageDetection)
    (currentTimestamp currentDate : String) (counter : Nat) (draws : List Nat) :
    List DefectRegistryItem × Nat :=
  let m := buildLocationDefectMap leakageStatus
  let st := foldProcess currentTimestamp currentDate
    { registry := currentRegistry, counter := counter, draws := draws } m
  let sorted := st.registry.insertionSort fun a b => compareDefects timeOf a b ≤ 0
  (if sorted.length > MAX_DEFECT_REGISTRY_SIZE then
    sorted.take MAX_DEFECT_REGISTRY_SIZE
  else sorted, st.counter)

/-- Embeds `getInitialDefectRegistry`: the static registry sorted by
`detectedDate` descending, truncated to `MAX_DEFECT_REGISTRY_SIZE`. -/
def getInitialDefectRegistry (timeOf : String → Int) : List DefectRegistryItem :=
  let allDefects := getStaticDefectRegistry
  (allDefects.insertionSort fun a b =>
      timeOf b.detectedDate - timeOf a.detectedDate ≤ 0).take MAX_DEFECT_REGISTRY_SIZE

/-- A sequence of reconcile calls: each step carries its snapshot, timestamp,
date and confidence draws; the registry and the id counter are threaded. -/
def reconcileRun (timeOf : String → Int) :
    List DefectRegistryItem → Nat →
    List (LeakageDetection × String × String × List Nat) →
    List DefectRegistryItem × Nat
  | reg, c, [] => (reg, c)
  | reg, c, (ls, ts, date, draws) :: rest =>
    let r := updateDefectRegistryWithDetections timeOf reg ls ts date c draws
    reconcileRun timeOf r.1 r.2 rest

/-- The identity key of a registry entry: its `(location, defectType)` pair. -/
def itemPair (e : DefectRegistryItem) : Option String × String :=
  (e.location, e.defectType)

/-- The identity key of a raw detection: its `(location, defectType)` pair. -/
def detPair (d : DefectDetection) : Option String × String :=
  (d.location, d.defectType)

/-- The `(location, defectType)` pair `p` occurs among the detections `l`. -/
def pairAppearsIn (l : List DefectDetection) (p : Option String × String) : Prop :=
  ∃ d ∈ l, detPair d = p

instance (l : List DefectDetection) (p : Option String × String) :
    Decidable (pairAppearsIn l p) :=
  inferInstanceAs (Decidable (∃ d ∈ l, detPair d = p))

/-- All raw detections of a snapshot, control system first. -/
def allDetections (ls : LeakageDetection) : List DefectDetection :=
  ls.controlSystem.detections ++ ls.drone.detections

/-- No two detections of the snapshot with distinct `(location, defectType)`
pairs collide on the concatenated grouping key
`` `${location}-${defectType}` `` (locations containing `-` can make two
distinct pairs produce the same key). -/
def keyCollisionFree (ls : LeakageDetection) : Prop :=
  ∀ d1 ∈ allDetections ls, ∀ d2 ∈ allDetections ls,
    detectionKey d1 = detectionKey d2 → detPair d1 = detPair d2

instance (ls : LeakageDetection) : Decidable (keyCollisionFree ls) :=
  inferInstanceAs (Decidable (∀ d1 ∈ allDetections ls, ∀ d2 ∈ allDetections ls,
    detectionKey d1 = detectionKey d2 → detPair d1 = detPair d2))

/-- Decimal read-back of a digit string, inverse of `jsNumToString`. -/
def parseBack (s : String) : Nat :=
  ofDigitsLE (s.data.reverse.map fun c => c.toNat - 48)

/-- A concrete stand-in for `new Date(s).getTime()` used by concrete
evaluations: reads a string of decimal digits as a number. -/
def demoTime (s : String) : Int :=
  Int.ofNat (s.data.foldl (fun n c => n * 10 + (c.toNat - 48)) 0)

/-- The loop state reached by `updateDefectRegistryWithDetections` after the
`forEach` loop, before sorting and truncation. -/
def reconcileState (currentRegistry : List DefectRegistryItem)
    (leakageStatus : LeakageDetection) (currentTimestamp currentDate : String)
    (counter : Nat) (draws : List Nat) : RecState :=
  foldProcess currentTimestamp currentDate
    { registry := currentRegistry, counter := counter, draws := draws }
    (buildLocationDefectMap leakageStatus)

/-- The registry of `updateDefectRegistryWithDetections` after sorting, before
truncation. -/
def reconcileSorted (timeOf : String → Int)
    (currentRegistry : List DefectRegistryItem) (leakageStatus : LeakageDetection)
    (currentTimestamp currentDate : String) (counter : Nat) (draws : List Nat) :
    List DefectRegistryItem :=
  (reconcileState currentRegistry leakageStatus currentTimestamp currentDate
    counter draws).registry.insertionSort fun a b => compareDefects timeOf a b ≤ 0

/-- The registry ordering stated by the specification, relative to the date
interpretation `timeOf`: entries with a `lastDetected` timestamp precede
entries without one; two timestamped entries are ordered by `lastDetected`
descending; two untimestamped entries by `detectedDate` descending. -/
def specOrdering (timeOf : String → Int) (a b : DefectRegistryItem) : Prop :=
  match a.lastDetected, b.lastDetected with
  | some x, some y => timeOf y ≤ timeOf x
  | some _, none => True
  | none, some _ => False
  | none, none => timeOf b.detectedDate ≤ timeOf a.detectedDate

/-- The facts the loop body establishes on every entry it updates or creates:
the detection date is overwritten with the current date, the last-detected
timestamp is set to the current timestamp, and the status is recomputed from
the risk level of the entry's defect type. -/
def touchedFacts (currentTimestamp currentDate : String)
    (e : DefectRegistryItem) : Prop :=
  e.detectedDate = currentDate ∧ e.lastDetected = some currentTimestamp ∧
    e.status = autoStatus (getRiskLevel e.defectType).level

/-- Soundness predicate for `locationDefectMap`: every stored detection comes
from the corresponding subsystem list and is stored under its own key. -/
def mapSourced (ctrl drone : List DefectDetection)
    (m : List (String × PairedDetections)) : Prop :=
  ∀ kv ∈ m,
    (∀ c, kv.2.controlSystem = some c → c ∈ ctrl ∧ detectionKey c = kv.1) ∧
    (∀ d, kv.2.drone = some d → d ∈ drone ∧ detectionKey d = kv.1)

/-- A small registry entry used by the concrete evaluations below. -/
def demoEntry : DefectRegistryItem :=
  { id := "X", defectType := "t", location := some "A",
    riskLevel := .low, riskLabel := "Low", riskIcon := "i",
    detectedDate := "1", lastDetected := none, status := .resolved,
    controlSystemSign := "s", controlSystemSource := "o",
    droneSign := "s2", droneSource := "o2", aiConfidence := 90 }

/-- A control-system detection agreeing with `demoDroneDet` on `(A, t)`. -/
def demoControlDet : DefectDetection :=
  { defectType := "t", sign := "cs", source := "c", location := some "A" }

/-- A drone detection agreeing with `demoControlDet` on `(A, t)`. -/
def demoDroneDet : DefectDetection :=
  { defectType := "t", sign := "ds", source := "d", location := some "A" }

/-- A snapshot in which both subsystems report the pair `(A, t)`. -/
def demoAgreeSnapshot : LeakageDetection :=
  { controlSystem := { status := .detected, detections := [demoControlDet] },
    drone := { status := .detected, detections := [demoDroneDet] },
    totalLeakages := 1 }

/-- A snapshot in which only the control system reports the pair `(A, t)`. -/
def demoSoloSnapshot : LeakageDetection :=
  { controlSystem := { status := .detected, detections := [demoControlDet] },
    drone := { status := .ok, detections := [] },
    totalLeakages := 1 }

/-- Control-system detection of pair `(A, B-T)`: its grouping key is
`A-B-T`. -/
def collisionControlDet : DefectDetection :=
  { defectType := "B-T", sign := "cs", source := "c", location := some "A" }

/-- Drone detection of the distinct pair `(A-B, T)`: its grouping key is
also `A-B-T`. -/
def collisionDroneDet : DefectDetection :=
  { defectType := "T", sign := "ds", source := "d", location := some "A-B" }

/-- A snapshot in which the two subsystems report two different
`(location, defectType)` pairs whose concatenated grouping keys coincide. -/
def collisionSnapshot : LeakageDetection :=
  { controlSystem := { status := .detected, detections := [collisionControlDet] },
    drone := { status := .detected, detections := [collisionDroneDet] },
    totalLeakages := 2 }

/-- The `i`-th entry of the concrete 15-entry registry used to exhibit
truncation: pair `(L{i}, t)`, first detected on day `i + 1`, never
re-detected. -/
def mkDemoEntry (i : Nat) : DefectRegistryItem :=
  { id := jsNumToString i, defectType := "t",
    location := some ("L" ++ jsNumToString i),
    riskLevel := .low, riskLabel := "Low", riskIcon := "i",
    detectedDate := jsNumToString (i + 1), lastDetected := none,
    status := .resolved,
    controlSystemSign := "s", controlSystemSource := "o",
    droneSign := "s2", droneSource := "o2", aiConfidence := 90 }

/-- A full registry of 15 entries with pairwise distinct pairs. -/
def demoRegistry15 : List DefectRegistryItem := (List.range 15).map mkDemoEntry

/-- Control-system detection of the brand-new pair `(N, t)`. -/
def newPairControlDet : DefectDetection :=
  { defectType := "t", sign := "cs", source := "c", location := some "N" }

/-- Drone detection of the brand-new pair `(N, t)`. -/
def newPairDroneDet : DefectDetection :=
  { defectType := "t", sign := "ds", source := "d", location := some "N" }

/-- Control-system-only detection of the oldest demo entry's pair `(L0, t)`. -/
def soloOldDet : DefectDetection :=
  { defectType := "t", sign := "x", source := "y", location := some "L0" }

/-- A snapshot whose agreeing new pair pushes `demoRegistry15` to 16 entries,
while the pair of the oldest entry is reported by the control system only. -/
def truncationSnapshot : LeakageDetection :=
  { controlSystem :=
      { status := .detected, detections := [newPairControlDet, soloOldDet] },
    drone := { status := .detected, detections := [newPairDroneDet] },
    totalLeakages := 2 }

namespace DetectionService

/-- The part of a `fetch` response that `DetectionService.getLeakageStatus`
inspects: the HTTP status code, its status text, and the decoded JSON body
(`response.ok` is derived: status in 200-299). -/
structure HttpResponse (α : Type) where
  status : Nat
  statusText : String
  body : α
deriving DecidableEq

/-- `response.ok`: the status code is in the range 200-299. -/
def responseOk (r : HttpResponse α) : Bool :=
  200 ≤ r.status && r.status ≤ 299

/-- Embeds `DetectionService.getLeakageStatus`: on a non-ok response it throws
`new Error('Failed to fetch leakage status: ' + response.statusText)`,
otherwise it resolves with the decoded body. -/
def getLeakageStatus (r : HttpResponse α) : Except String α :=
  if responseOk r then Except.ok r.body
  else Except.error ("Failed to fetch leakage status: " ++ r.statusText)

end DetectionService

/-! ### Generic list lemmas -/

theorem list_set_self (l : List α) (i : Nat) (h : i < l.length) :
    l.set i l[i] = l := by
  induction l generalizing i with
  | nil => rfl
  | cons a t ih =>
    cases i with
    | zero => rfl
    | succ j => simp only [List.set, List.getElem_cons_succ, List.cons.injEq,
        true_and]; exact ih j (by simpa using h)

theorem mem_set_of_ne (l : List α) (i : Nat) (v a : α) (ha : a ∈ l)
    (h : i < l.length) (hne : a ≠ l[i]) : a ∈ l.set i v := by
  induction l generalizing i with
  | nil => cases ha
  | cons b t ih =>
    cases i with
    | zero =>
      simp only [List.getElem_cons_zero] at hne
      rcases List.mem_cons.1 ha with rfl | hm
      · exact absurd rfl hne
      · exact List.mem_cons_of_mem _ hm
    | succ j =>
      simp only [List.getElem_cons_succ] at hne
      rcases List.mem_cons.1 ha with rfl | hm
      · exact List.mem_cons_self _ _
      · exact List.mem_cons_of_mem _ (ih j hm (by simpa using h) hne)

theorem jsFindIndex_eq_some {p : α → Bool} {l : List α} {i : Nat}
    (h : jsFindIndex p l = some i) : ∃ hi : i < l.length, p l[i] = true := by
  induction l generalizing i with
  | nil => cases h
  | cons a t ih =>
    by_cases hp : p a
    · simp only [jsFindIndex, hp, if_pos] at h
      cases h
      exact ⟨by simp, hp⟩
    · simp only [jsFindIndex, hp, Bool.false_eq_true, if_false, Option.map_eq_some'] at h
      obtain ⟨j, hj, rfl⟩ := h
      obtain ⟨hjl, hpl⟩ := ih hj
      exact ⟨by simpa using hjl, by simpa using hpl⟩

theorem jsFindIndex_eq_none {p : α → Bool} {l : List α}
    (h : jsFindIndex p l = none) : ∀ a ∈ l, p a = false := by
  induction l with
  | nil => intro a ha; cases ha
  | cons b t ih =>
    intro a ha
    by_cases hp : p b
    · simp [jsFindIndex, hp] at h
    · simp only [jsFindIndex, hp, Bool.false_eq_true, if_false,
        Option.map_eq_none'] at h
      rcases List.mem_cons.1 ha with rfl | hm
      · exact Bool.eq_false_iff.2 hp
      · exact ih h a hm

/-! ### The comparator is a total preorder and refines the spec ordering -/

theorem compareDefects_total (timeOf : String → Int) (a b : DefectRegistryItem) :
    compareDefects timeOf a b ≤ 0 ∨ compareDefects timeOf b a ≤ 0 := by
  unfold compareDefects
  cases hal : a.lastDetected <;> cases hbl : b.lastDetected <;>
    simp only [] <;> omega

theorem compareDefects_trans (timeOf : String → Int) (a b c : DefectRegistryItem)
    (h1 : compareDefects timeOf a b ≤ 0) (h2 : compareDefects timeOf b c ≤ 0) :
    compareDefects timeOf a c ≤ 0 := by
  unfold compareDefects at h1 h2 ⊢
  cases hal : a.lastDetected <;> cases hbl : b.lastDetected <;>
    cases hcl : c.lastDetected <;> simp only [hal, hbl, hcl] at h1 h2 ⊢ <;> omega

theorem compareDefects_specOrdering (timeOf : String → Int)
    (a b : DefectRegistryItem) (h : compareDefects timeOf a b ≤ 0) :
    specOrdering timeOf a b := by
  unfold compareDefects at h
  unfold specOrdering
  cases hal : a.lastDetected <;> cases hbl : b.lastDetected <;>
    simp only [hal, hbl] at h ⊢ <;> first | trivial | omega

/-! ### Characterization of one `forEach` iteration -/

theorem processDetections_cases (ts date : String) (st : RecState)
    (e : PairedDetections) :
    (processDetections ts date st e).registry = st.registry ∨
    (∃ cs dr i conf, e.controlSystem = some cs ∧ e.drone = some dr ∧
      ∃ hi : i < st.registry.length,
        (st.registry[i].location = cs.location ∧
          st.registry[i].defectType = cs.defectType) ∧
        (processDetections ts date st e).registry =
          st.registry.set i (updatedItem st.registry[i] cs dr ts date conf)) ∨
    (∃ cs dr newId conf, e.controlSystem = some cs ∧ e.drone = some dr ∧
      (∀ a ∈ st.registry,
        ¬(a.location = cs.location ∧ a.defectType = cs.defectType)) ∧
      (processDetections ts date st e).registry =
        st.registry ++ [newItem newId cs dr ts date conf]) := by
  rcases hc : e.controlSystem with _ | cs
  · left; simp [processDetections, hc]
  rcases hd : e.drone with _ | dr
  · left; simp [processDetections, hc, hd]
  rcases hf : jsFindIndex
      (fun d => d.location == cs.location && d.defectType == cs.defectType)
      st.registry with _ | i
  · right; right
    refine ⟨cs, dr, (generateDefectId st.counter).1, (nextConfidence st.draws).1,
      rfl, rfl, ?_, ?_⟩
    · intro a ha
      have hb := jsFindIndex_eq_none hf a ha
      rintro ⟨h1, h2⟩
      rw [h1, h2] at hb
      simp at hb
    · simp [processDetections, hc, hd, hf]
  · right; left
    obtain ⟨hi, hp⟩ := jsFindIndex_eq_some hf
    simp only [Bool.and_eq_true, beq_iff_eq] at hp
    refine ⟨cs, dr, i, (nextConfidence st.draws).1, rfl, rfl, hi, hp, ?_⟩
    simp only [processDetections, hc, hd, hf]
    rw [List.get?_eq_getElem?, List.getElem?_eq_getElem hi, Option.getD_some]

/-! ### Facts about updated and created entries -/

theorem itemPair_updatedItem (base : DefectRegistryItem) (cs dr : DefectDetection)
    (ts date : String) (conf : Nat) :
    itemPair (updatedItem base cs dr ts date conf) = itemPair base := rfl

theorem itemPair_newItem (nid : String) (cs dr : DefectDetection)
    (ts date : String) (conf : Nat) :
    itemPair (newItem nid cs dr ts date conf) = detPair cs := rfl

theorem updatedItem_touched (base : DefectRegistryItem) (cs dr : DefectDetection)
    (ts date : String) (conf : Nat) (hty : base.defectType = cs.defectType) :
    touchedFacts ts date (updatedItem base cs dr ts date conf) := by
  refine ⟨rfl, rfl, ?_⟩
  show autoStatus (getRiskLevel cs.defectType).level =
    autoStatus (getRiskLevel base.defectType).level
  rw [hty]

theorem newItem_touched (nid : String) (cs dr : DefectDetection)
    (ts date : String) (conf : Nat) :
    touchedFacts ts date (newItem nid cs dr ts date conf) := ⟨rfl, rfl, rfl⟩

theorem itemPair_eq_detPair_iff (a : DefectRegistryItem) (cs : DefectDetection) :
    itemPair a = detPair cs ↔
      (a.location = cs.location ∧ a.defectType = cs.defectType) := by
  unfold itemPair detPair
  constructor
  · intro h; exact ⟨congrArg Prod.fst h, congrArg Prod.snd h⟩
  · rintro ⟨h1, h2⟩; rw [h1, h2]

/-! ### Invariants of the `forEach` fold -/

theorem processDetections_mem (ts date : String) (st : RecState)
    (e : PairedDetections) :
    ∀ f ∈ (processDetections ts date st e).registry,
      f ∈ st.registry ∨ touchedFacts ts date f := by
  intro f hf
  rcases processDetections_cases ts date st e with heq |
    ⟨cs, dr, i, conf, _, _, hi, hmatch, heq⟩ |
    ⟨cs, dr, nid, conf, _, _, _, heq⟩
  · rw [heq] at hf; exact Or.inl hf
  · rw [heq] at hf
    rcases List.mem_or_eq_of_mem_set hf with h | rfl
    · exact Or.inl h
    · exact Or.inr (updatedItem_touched _ _ _ _ _ _ hmatch.2)
  · rw [heq] at hf
    rcases List.mem_append.1 hf with h | h
    · exact Or.inl h
    · rw [List.mem_singleton] at h
      subst h
      exact Or.inr (newItem_touched _ _ _ _ _ _)

theorem foldProcess_mem (ts date : String) :
    ∀ (m : List (String × PairedDetections)) (st : RecState),
    ∀ f ∈ (foldProcess ts date st m).registry,
      f ∈ st.registry ∨ touchedFacts ts date f := by
  intro m
  induction m with
  | nil => intro st f hf; exact Or.inl hf
  | cons kv mrest ih =>
    intro st f hf
    rcases ih (processDetections ts date st kv.2) f hf with h | h
    · exact processDetections_mem ts date st kv.2 f h
    · exact Or.inr h

theorem processDetections_pair_frame (ts date : String) (st : RecState)
    (e : PairedDetections) (p : Option String × String)
    (hp : ∀ cs dr, e.controlSystem = some cs → e.drone = some dr →
      detPair cs ≠ p) :
    (∀ f ∈ (processDetections ts date st e).registry,
      itemPair f = p → f ∈ st.registry) ∧
    (∀ f ∈ st.registry, itemPair f = p →
      f ∈ (processDetections ts date st e).registry) := by
  rcases processDetections_cases ts date st e with heq |
    ⟨cs, dr, i, conf, hcs, hdr, hi, hmatch, heq⟩ |
    ⟨cs, dr, nid, conf, hcs, hdr, _, heq⟩
  · rw [heq]; exact ⟨fun f hf _ => hf, fun f hf _ => hf⟩
  · have hbase : itemPair (st.registry[i]) = detPair cs :=
      (itemPair_eq_detPair_iff _ _).2 hmatch
    have hnp := hp cs dr hcs hdr
    constructor
    · intro f hf hfp
      rw [heq] at hf
      rcases List.mem_or_eq_of_mem_set hf with h | rfl
      · exact h
      · rw [itemPair_updatedItem, hbase] at hfp
        exact absurd hfp hnp
    · intro f hf hfp
      rw [heq]
      refine mem_set_of_ne _ _ _ _ hf hi ?_
      intro hfe
      rw [hfe, hbase] at hfp
      exact hnp hfp
  · have hnp := hp cs dr hcs hdr
    constructor
    · intro f hf hfp
      rw [heq] at hf
      rcases List.mem_append.1 hf with h | h
      · exact h
      · rw [List.mem_singleton] at h
        subst h
        rw [itemPair_newItem] at hfp
        exact absurd hfp hnp
    · intro f hf _
      rw [heq]; exact List.mem_append_left _ hf

theorem foldProcess_pair_frame (ts date : String) (p : Option String × String) :
    ∀ (m : List (String × PairedDetections)) (st : RecState),
    (∀ kv ∈ m, ∀ cs dr, kv.2.controlSystem = some cs →
      kv.2.drone = some dr → detPair cs ≠ p) →
    (∀ f ∈ (foldProcess ts date st m).registry,
      itemPair f = p → f ∈ st.registry) ∧
    (∀ f ∈ st.registry, itemPair f = p →
      f ∈ (foldProcess ts date st m).registry) := by
  intro m
  induction m with
  | nil => intro st _; exact ⟨fun f hf _ => hf, fun f hf _ => hf⟩
  | cons kv mrest ih =>
    intro st hm
    have hkv := hm kv (List.mem_cons_self _ _)
    have hrest := fun kv' h => hm kv' (List.mem_cons_of_mem _ h)
    have hstep := processDetections_pair_frame ts date st kv.2 p hkv
    have hih := ih (processDetections ts date st kv.2) hrest
    constructor
    · intro f hf hfp
      exact hstep.1 f (hih.1 f hf hfp) hfp
    · intro f hf hfp
      exact hih.2 f (hstep.2 f hf hfp) hfp

theorem processDetections_nodup (ts date : String) (st : RecState)
    (e : PairedDetections) (h : (st.registry.map itemPair).Nodup) :
    ((processDetections ts date st e).registry.map itemPair).Nodup := by
  rcases processDetections_cases ts date st e with heq |
    ⟨cs, dr, i, conf, _, _, hi, hmatch, heq⟩ |
    ⟨cs, dr, nid, conf, _, _, hnone, heq⟩
  · rw [heq]; exact h
  · rw [heq, List.map_set]
    have hi2 : i < (st.registry.map itemPair).length := by simpa using hi
    have h3 : (st.registry.map itemPair)[i] = itemPair (st.registry[i]) :=
      List.getElem_map itemPair
    rw [itemPair_updatedItem, ← h3, list_set_self _ _ hi2]
    exact h
  · rw [heq, List.map_append, List.nodup_append]
    refine ⟨h, by simp, ?_⟩
    intro q hq
    simp only [List.map_cons, List.map_nil, List.mem_singleton, itemPair_newItem]
    obtain ⟨a, ha, rfl⟩ := List.mem_map.1 hq
    intro hcontra
    exact hnone a ha ((itemPair_eq_detPair_iff a cs).1 hcontra)

theorem foldProcess_nodup (ts date : String) :
    ∀ (m : List (String × PairedDetections)) (st : RecState),
    (st.registry.map itemPair).Nodup →
    ((foldProcess ts date st m).registry.map itemPair).Nodup := by
  intro m
  induction m with
  | nil => intro st h; exact h
  | cons kv mrest ih =>
    intro st h
    exact ih (processDetections ts date st kv.2)
      (processDetections_nodup ts date st kv.2 h)

theorem processDetections_id (reg0 : List DefectRegistryItem)
    (ts date : String) (st : RecState) (e : PairedDetections)
    (hJ : ∀ g ∈ reg0, ∀ f ∈ st.registry, itemPair f = itemPair g → f.id = g.id)
    (hK : ∀ g ∈ reg0, ∃ f ∈ st.registry, itemPair f = itemPair g) :
    (∀ g ∈ reg0, ∀ f ∈ (processDetections ts date st e).registry,
      itemPair f = itemPair g → f.id = g.id) ∧
    (∀ g ∈ reg0, ∃ f ∈ (processDetections ts date st e).registry,
      itemPair f = itemPair g) := by
  rcases processDetections_cases ts date st e with heq |
    ⟨cs, dr, i, conf, _, _, hi, hmatch, heq⟩ |
    ⟨cs, dr, nid, conf, _, _, hnone, heq⟩
  · rw [heq]; exact ⟨hJ, hK⟩
  · have hbase : itemPair (st.registry[i]) = detPair cs :=
      (itemPair_eq_detPair_iff _ _).2 hmatch
    constructor
    · intro g hg f hf hfp
      rw [heq] at hf
      rcases List.mem_or_eq_of_mem_set hf with hmem | rfl
      · exact hJ g hg f hmem hfp
      · rw [itemPair_updatedItem] at hfp
        have : (updatedItem (st.registry[i]) cs dr ts date conf).id =
            (st.registry[i]).id := rfl
        rw [this]
        exact hJ g hg (st.registry[i]) (List.getElem_mem hi) hfp
    · intro g hg
      obtain ⟨w, hw, hwp⟩ := hK g hg
      rw [heq]
      by_cases hweq : w = st.registry[i]
      · refine ⟨updatedItem (st.registry[i]) cs dr ts date conf, ?_, ?_⟩
        · exact List.mem_set st.registry i hi _
        · rw [itemPair_updatedItem, ← hweq]
          exact hwp
      · exact ⟨w, mem_set_of_ne _ _ _ _ hw hi hweq, hwp⟩
  · constructor
    · intro g hg f hf hfp
      rw [heq] at hf
      rcases List.mem_append.1 hf with hmem | hmem
      · exact hJ g hg f hmem hfp
      · rw [List.mem_singleton] at hmem
        subst hmem
        rw [itemPair_newItem] at hfp
        obtain ⟨w, hw, hwp⟩ := hK g hg
        rw [← hfp] at hwp
        exact absurd ((itemPair_eq_detPair_iff w cs).1 hwp) (hnone w hw)
    · intro g hg
      obtain ⟨w, hw, hwp⟩ := hK g hg
      rw [heq]
      exact ⟨w, List.mem_append_left _ hw, hwp⟩

theorem update_fst (timeOf : String → Int) (reg : List DefectRegistryItem)
    (ls : LeakageDetection) (ts date : String) (c : Nat) (draws : List Nat) :
    (updateDefectRegistryWithDetections timeOf reg ls ts date c draws).1 =
      if (reconcileSorted timeOf reg ls ts date c draws).length >
          MAX_DEFECT_REGISTRY_SIZE then
        (reconcileSorted timeOf reg ls ts date c draws).take
          MAX_DEFECT_REGISTRY_SIZE
      else reconcileSorted timeOf reg ls ts date c draws := rfl

theorem update_snd (timeOf : String → Int) (reg : List DefectRegistryItem)
    (ls : LeakageDetection) (ts date : String) (c : Nat) (draws : List Nat) :
    (updateDefectRegistryWithDetections timeOf reg ls ts date c draws).2 =
      (reconcileState reg ls ts date c draws).counter := rfl

theorem reconcileSorted_perm (timeOf : String → Int)
    (reg : List DefectRegistryItem) (ls : LeakageDetection) (ts date : String)
    (c : Nat) (draws : List Nat) :
    (reconcileSorted timeOf reg ls ts date c draws).Perm
      (reconcileState reg ls ts date c draws).registry :=
  List.perm_insertionSort _ _

theorem mem_of_mem_update (timeOf : String → Int)
    (reg : List DefectRegistryItem) (ls : LeakageDetection) (ts date : String)
    (c : Nat) (draws : List Nat) :
    ∀ f ∈ (updateDefectRegistryWithDetections timeOf reg ls ts date c draws).1,
      f ∈ (reconcileState reg ls ts date c draws).registry := by
  intro f hf
  rw [update_fst] at hf
  have hs : f ∈ reconcileSorted timeOf reg ls ts date c draws := by
    split at hf
    · exact List.take_subset _ _ hf
    · exact hf
  exact (reconcileSorted_perm timeOf reg ls ts date c draws).mem_iff.1 hs

theorem mem_update_of_mem (timeOf : String → Int)
    (reg : List DefectRegistryItem) (ls : LeakageDetection) (ts date : String)
    (c : Nat) (draws : List Nat) :
    ∀ f ∈ (reconcileState reg ls ts date c draws).registry,
      f ∈ (updateDefectRegistryWithDetections timeOf reg ls ts date c draws).1 ∨
      (updateDefectRegistryWithDetections timeOf reg ls ts date c draws).1.length =
        MAX_DEFECT_REGISTRY_SIZE := by
  intro f hf
  have hs : f ∈ reconcileSorted timeOf reg ls ts date c draws :=
    (reconcileSorted_perm timeOf reg ls ts date c draws).mem_iff.2 hf
  rw [update_fst]
  by_cases hlen : (reconcileSorted timeOf reg ls ts date c draws).length >
      MAX_DEFECT_REGISTRY_SIZE
  · right
    rw [if_pos hlen, List.length_take]
    omega
  · left
    rw [if_neg hlen]
    exact hs

/-! ### Decimal id strings -/

theorem ofDigits_decDigits : ∀ f n, n ≤ f → ofDigitsLE (decDigits f n) = n := by
  intro f
  induction f with
  | zero =>
    intro n h
    have : n = 0 := by omega
    subst this
    rfl
  | succ f ih =>
    intro n h
    by_cases hn : n = 0
    · subst hn; rfl
    · simp only [decDigits, if_neg hn, ofDigitsLE]
      rw [ih (n / 10) (by omega)]
      omega

theorem decDigits_lt10 : ∀ f n d, d ∈ decDigits f n → d < 10 := by
  intro f
  induction f with
  | zero => intro n d hd; cases hd
  | succ f ih =>
    intro n d hd
    by_cases hn : n = 0
    · subst hn; cases hd
    · simp only [decDigits, if_neg hn] at hd
      rcases List.mem_cons.1 hd with rfl | hm
      · omega
      · exact ih _ _ hm

theorem digit_char_val (d : Nat) (h : d < 10) :
    (Char.ofNat (48 + d)).toNat - 48 = d := by
  interval_cases d <;> decide

theorem map_digit_inverse : ∀ (l : List Nat), (∀ d ∈ l, d < 10) →
    ((l.map fun d => Char.ofNat (48 + d)).map fun c => c.toNat - 48) = l := by
  intro l
  induction l with
  | nil => intro _; rfl
  | cons d rest ih =>
    intro h
    simp only [List.map_cons, List.cons.injEq]
    exact ⟨digit_char_val d (h d (List.mem_cons_self _ _)),
      ih fun x hx => h x (List.mem_cons_of_mem _ hx)⟩

theorem parseBack_jsNumToString (n : Nat) : parseBack (jsNumToString n) = n := by
  by_cases hn : n = 0
  · subst hn; decide
  · unfold jsNumToString parseBack
    rw [if_neg hn]
    show ofDigitsLE
      ((((decDigits n n).map fun d => Char.ofNat (48 + d)).reverse.reverse).map
        fun c => c.toNat - 48) = n
    rw [List.reverse_reverse, map_digit_inverse _ (decDigits_lt10 n n),
      ofDigits_decDigits n n le_rfl]

theorem jsNumToString_inj {a b : Nat} (h : jsNumToString a = jsNumToString b) :
    a = b := by
  rw [← parseBack_jsNumToString a, h, parseBack_jsNumToString]

theorem decDigits_pos : ∀ f n, n ≤ f → 1 ≤ n → 1 ≤ (decDigits f n).length := by
  intro f n h h1
  cases f with
  | zero => omega
  | succ f =>
    simp [decDigits, show ¬ n = 0 by omega]

theorem decDigits_length3 (f n : Nat) (h : n ≤ f) (h100 : 100 ≤ n) :
    3 ≤ (decDigits f n).length := by
  obtain ⟨f1, rfl⟩ : ∃ f1, f = f1 + 1 := ⟨f - 1, by omega⟩
  simp only [decDigits, if_neg (show ¬ n = 0 by omega)]
  obtain ⟨f2, rfl⟩ : ∃ f2, f1 = f2 + 1 := ⟨f1 - 1, by omega⟩
  simp only [decDigits, if_neg (show ¬ n / 10 = 0 by omega)]
  have := decDigits_pos f2 (n / 10 / 10) (by omega) (by omega)
  simp only [List.length_cons]
  omega

theorem jsNumToString_length3 (n : Nat) (h100 : 100 ≤ n) :
    3 ≤ (jsNumToString n).length := by
  unfold jsNumToString
  rw [if_neg (show ¬ n = 0 by omega)]
  show 3 ≤ (((decDigits n n).map fun d => Char.ofNat (48 + d)).reverse).length
  rw [List.length_reverse, List.length_map]
  exact decDigits_length3 n n le_rfl h100

theorem padStart3_of_le (s : String) (h : 3 ≤ s.length) : padStart3 s = s := by
  unfold padStart3
  rw [if_pos h]

theorem generateDefectId_eq (c : Nat) (h : 100 ≤ c) :
    generateDefectId c = ("DEF-" ++ jsNumToString (c + 1), c + 1) := by
  show ("DEF-" ++ padStart3 (jsNumToString (c + 1)), c + 1) = _
  rw [padStart3_of_le _ (jsNumToString_length3 _ (by omega))]

theorem idTagAppend_inj {s t : String} (h : "DEF-" ++ s = "DEF-" ++ t) :
    s = t := by
  apply String.ext
  have h3 : "DEF-".data ++ s.data = "DEF-".data ++ t.data :=
    congrArg String.data h
  exact List.append_cancel_left h3

theorem runGenerate_eq : ∀ (n c : Nat), 100 ≤ c →
    runGenerate n c = (List.range n).map fun k => "DEF-" ++ jsNumToString (c + k + 1) := by
  intro n
  induction n with
  | zero => intro c _; rfl
  | succ n ih =>
    intro c hc
    show (generateDefectId c).1 :: runGenerate n (generateDefectId c).2 = _
    rw [generateDefectId_eq c hc]
    rw [List.range_succ_eq_map, List.map_cons, List.map_map]
    simp only [Nat.add_zero]
    congr 1
    rw [ih (c + 1) (by omega)]
    congr 1
    funext k
    show "DEF-" ++ jsNumToString (c + 1 + k + 1) =
      "DEF-" ++ jsNumToString (c + (k + 1) + 1)
    congr 2
    omega

theorem lookup_eq_none_of_not_mem {β : Type} :
    ∀ (l : List (String × β)) (s : String), s ∉ l.map Prod.fst →
      l.lookup s = none := by
  intro l
  induction l with
  | nil => intro s _; rfl
  | cons kv rest ih =>
    obtain ⟨k, b⟩ := kv
    intro s hs
    simp only [List.map_cons, List.mem_cons, not_or] at hs
    simp only [List.lookup, beq_eq_false_iff_ne.2 hs.1]
    exact ih s hs.2

/-! ### Soundness of the grouping map -/

theorem mapSetControl_sourced {ctrl drone : List DefectDetection}
    (c0 : DefectDetection) (hc0 : c0 ∈ ctrl) :
    ∀ (m : List (String × PairedDetections)), mapSourced ctrl drone m →
    mapSourced ctrl drone (mapSetControl m (detectionKey c0) c0) := by
  intro m
  induction m with
  | nil =>
    intro _ kv hkv
    simp only [mapSetControl, List.mem_singleton] at hkv
    subst hkv
    refine ⟨?_, ?_⟩
    · intro c hc
      cases hc
      exact ⟨hc0, rfl⟩
    · intro d hd
      cases hd
  | cons kv0 rest ih =>
    obtain ⟨k', e⟩ := kv0
    intro h kv hkv
    have hhead := h (k', e) (List.mem_cons_self _ _)
    have htail := fun kv' hk => h kv' (List.mem_cons_of_mem _ hk)
    by_cases hk : k' = detectionKey c0
    · simp only [mapSetControl, if_pos hk] at hkv
      rcases List.mem_cons.1 hkv with rfl | hm
      · refine ⟨?_, ?_⟩
        · intro c hc
          cases hc
          exact ⟨hc0, hk.symm⟩
        · intro d hd
          exact hhead.2 d hd
      · exact htail _ hm
    · simp only [mapSetControl, if_neg hk] at hkv
      rcases List.mem_cons.1 hkv with rfl | hm
      · exact hhead
      · exact ih htail _ hm

theorem mapSetDrone_sourced {ctrl drone : List DefectDetection}
    (d0 : DefectDetection) (hd0 : d0 ∈ drone) :
    ∀ (m : List (String × PairedDetections)), mapSourced ctrl drone m →
    mapSourced ctrl drone (mapSetDrone m (detectionKey d0) d0) := by
  intro m
  induction m with
  | nil =>
    intro _ kv hkv
    simp only [mapSetDrone, List.mem_singleton] at hkv
    subst hkv
    refine ⟨?_, ?_⟩
    · intro c hc
      cases hc
    · intro d hd
      cases hd
      exact ⟨hd0, rfl⟩
  | cons kv0 rest ih =>
    obtain ⟨k', e⟩ := kv0
    intro h kv hkv
    have hhead := h (k', e) (List.mem_cons_self _ _)
    have htail := fun kv' hk => h kv' (List.mem_cons_of_mem _ hk)
    by_cases hk : k' = detectionKey d0
    · simp only [mapSetDrone, if_pos hk] at hkv
      rcases List.mem_cons.1 hkv with rfl | hm
      · refine ⟨?_, ?_⟩
        · intro c hc
          exact hhead.1 c hc
        · intro d hd
          cases hd
          exact ⟨hd0, hk.symm⟩
      · exact htail _ hm
    · simp only [mapSetDrone, if_neg hk] at hkv
      rcases List.mem_cons.1 hkv with rfl | hm
      · exact hhead
      · exact ih htail _ hm

theorem foldControl_sourced {ctrl drone : List DefectDetection} :
    ∀ (dets : List DefectDetection), (∀ d ∈ dets, d ∈ ctrl) →
    ∀ (m : List (String × PairedDetections)), mapSourced ctrl drone m →
    mapSourced ctrl drone
      (dets.foldl (fun m d => mapSetControl m (detectionKey d) d) m) := by
  intro dets
  induction dets with
  | nil => intro _ m h; exact h
  | cons d rest ih =>
    intro hsub m h
    exact ih (fun x hx => hsub x (List.mem_cons_of_mem _ hx)) _
      (mapSetControl_sourced d (hsub d (List.mem_cons_self _ _)) m h)

theorem foldDrone_sourced {ctrl drone : List DefectDetection} :
    ∀ (dets : List DefectDetection), (∀ d ∈ dets, d ∈ drone) →
    ∀ (m : List (String × PairedDetections)), mapSourced ctrl drone m →
    mapSourced ctrl drone
      (dets.foldl (fun m d => mapSetDrone m (detectionKey d) d) m) := by
  intro dets
  induction dets with
  | nil => intro _ m h; exact h
  | cons d rest ih =>
    intro hsub m h
    exact ih (fun x hx => hsub x (List.mem_cons_of_mem _ hx)) _
      (mapSetDrone_sourced d (hsub d (List.mem_cons_self _ _)) m h)

theorem buildMap_sourced (ls : LeakageDetection) :
    mapSourced ls.controlSystem.detections ls.drone.detections
      (buildLocationDefectMap ls) := by
  unfold buildLocationDefectMap
  refine foldDrone_sourced _ (fun d hd => hd) _
    (foldControl_sourced _ (fun d hd => hd) [] ?_)
  intro kv hkv
  cases hkv

theorem foldProcess_id (reg0 : List DefectRegistryItem) (ts date : String) :
    ∀ (m : List (String × PairedDetections)) (st : RecState),
    (∀ g ∈ reg0, ∀ f ∈ st.registry, itemPair f = itemPair g → f.id = g.id) →
    (∀ g ∈ reg0, ∃ f ∈ st.registry, itemPair f = itemPair g) →
    (∀ g ∈ reg0, ∀ f ∈ (foldProcess ts date st m).registry,
      itemPair f = itemPair g → f.id = g.id) ∧
    (∀ g ∈ reg0, ∃ f ∈ (foldProcess ts date st m).registry,
      itemPair f = itemPair g) := by
  intro m
  induction m with
  | nil => intro st hJ hK; exact ⟨hJ, hK⟩
  | cons kv mrest ih =>
    intro st hJ hK
    have hstep := processDetections_id reg0 ts date st kv.2 hJ hK
    exact ih (processDetections ts date st kv.2) hstep.1 hstep.2

/-! ### Claim theorems -/

/-- C7: `getRiskLevel` is a total deterministic function; the six known defect
type strings map to critical/critical/warning/warning/low/low respectively,
and every other string yields the deterministic fallback with level warning
and label Unknown; no input is an error. -/
theorem getRiskLevel_spec :
    (getRiskLevel "Major/Sudden Leak").level = RiskLevel.critical ∧
    (getRiskLevel "Mechanical Damage").level = RiskLevel.critical ∧
    (getRiskLevel "Minor/Gradual Leak").level = RiskLevel.warning ∧
    (getRiskLevel "Poor Pipe Support").level = RiskLevel.warning ∧
    (getRiskLevel "Corrosion & Erosion").level = RiskLevel.low ∧
    (getRiskLevel "Insulation/Coating Failure").level = RiskLevel.low ∧
    unknownRisk.level = RiskLevel.warning ∧ unknownRisk.label = "Unknown" ∧
    ∀ s, s ∉ riskMap.map Prod.fst → getRiskLevel s = unknownRisk := by
  refine ⟨by decide, by decide, by decide, by decide, by decide, by decide,
    rfl, rfl, ?_⟩
  intro s hs
  unfold getRiskLevel
  rw [lookup_eq_none_of_not_mem riskMap s hs]
  rfl

/-- Witness for C7: a defect type outside the lookup table gets the fallback
record. -/
theorem getRiskLevel_spec_witness :
    "Thermal Expansion" ∉ riskMap.map Prod.fst ∧
    getRiskLevel "Thermal Expansion" = unknownRisk :=
  ⟨by decide, getRiskLevel_spec.2.2.2.2.2.2.2.2 "Thermal Expansion" (by decide)⟩

theorem genid_ne_low_seed (k : Nat) (t : String) (ht : parseBack t ≤ 12) :
    "DEF-" ++ jsNumToString (100 + k + 1) ≠ "DEF-" ++ t := by
  intro heq
  have h2 := idTagAppend_inj heq
  have h3 := congrArg parseBack h2
  rw [parseBack_jsNumToString] at h3
  omega

/-- C8: within a session the generated ids are `DEF-` followed by the 3-digit
zero-padded counter value; successive numeric values strictly increase from
101, every generated id differs from the pre-seeded ids `DEF-001`..`DEF-012`,
and no id is ever returned twice. -/
theorem generateDefectId_spec (n : Nat) :
    runGenerate n initialDefectIdCounter =
      ((List.range n).map fun k =>
        "DEF-" ++ padStart3 (jsNumToString (100 + k + 1))) ∧
    (runGenerate n initialDefectIdCounter).Pairwise (· ≠ ·) ∧
    ∀ s ∈ runGenerate n initialDefectIdCounter,
      ∀ t ∈ getStaticDefectRegistry.map (fun e => e.id), s ≠ t := by
  have hrun : runGenerate n initialDefectIdCounter =
      (List.range n).map fun k => "DEF-" ++ jsNumToString (100 + k + 1) :=
    runGenerate_eq n 100 le_rfl
  refine ⟨?_, ?_, ?_⟩
  · rw [hrun]
    congr 1
    funext k
    rw [padStart3_of_le _ (jsNumToString_length3 _ (by omega))]
  · rw [hrun, List.pairwise_map]
    refine List.Pairwise.imp ?_ (List.pairwise_lt_range n)
    intro a b hab heq
    have := jsNumToString_inj (idTagAppend_inj heq)
    omega
  · intro s hs t ht
    rw [hrun] at hs
    obtain ⟨k, _, rfl⟩ := List.mem_map.1 hs
    fin_cases ht
    · exact fun heq => genid_ne_low_seed k "001" (by decide) (heq.trans (by decide))
    · exact fun heq => genid_ne_low_seed k "002" (by decide) (heq.trans (by decide))
    · exact fun heq => genid_ne_low_seed k "003" (by decide) (heq.trans (by decide))
    · exact fun heq => genid_ne_low_seed k "004" (by decide) (heq.trans (by decide))
    · exact fun heq => genid_ne_low_seed k "005" (by decide) (heq.trans (by decide))
    · exact fun heq => genid_ne_low_seed k "006" (by decide) (heq.trans (by decide))
    · exact fun heq => genid_ne_low_seed k "007" (by decide) (heq.trans (by decide))
    · exact fun heq => genid_ne_low_seed k "008" (by decide) (heq.trans (by decide))
    · exact fun heq => genid_ne_low_seed k "009" (by decide) (heq.trans (by decide))
    · exact fun heq => genid_ne_low_seed k "010" (by decide) (heq.trans (by decide))
    · exact fun heq => genid_ne_low_seed k "011" (by decide) (heq.trans (by decide))
    · exact fun heq => genid_ne_low_seed k "012" (by decide) (heq.trans (by decide))

theorem reconcileRun_length (timeOf : String → Int) :
    ∀ (steps : List (LeakageDetection × String × String × List Nat))
      (reg : List DefectRegistryItem) (c : Nat),
    (reconcileRun timeOf reg c steps).1.length ≤ MAX_DEFECT_REGISTRY_SIZE ∨
    (reconcileRun timeOf reg c steps).1 = reg := by
  intro steps
  induction steps with
  | nil => intro reg c; exact Or.inr rfl
  | cons step rest ih =>
    intro reg c
    obtain ⟨ls, ts, date, draws⟩ := step
    rcases ih (updateDefectRegistryWithDetections timeOf reg ls ts date c draws).1
        (updateDefectRegistryWithDetections timeOf reg ls ts date c draws).2 with
      h | h
    · exact Or.inl h
    · left
      rw [reconcileRun, h, update_fst]
      split
      · rw [List.length_take]
        omega
      · omega

/-- C3: the registry returned by `updateDefectRegistryWithDetections` never
exceeds 15 entries, `getInitialDefectRegistry` returns at most 15 entries, and
hence after any sequence of reconcile calls starting from the initial registry
the length is at most 15. -/
theorem boundedSize_spec :
    (∀ (timeOf : String → Int) (reg : List DefectRegistryItem)
      (ls : LeakageDetection) (ts date : String) (c : Nat) (draws : List Nat),
      (updateDefectRegistryWithDetections timeOf reg ls ts date c draws).1.length ≤
        MAX_DEFECT_REGISTRY_SIZE) ∧
    (∀ timeOf : String → Int,
      (getInitialDefectRegistry timeOf).length ≤ MAX_DEFECT_REGISTRY_SIZE) ∧
    (∀ (timeOf : String → Int) (c : Nat)
      (steps : List (LeakageDetection × String × String × List Nat)),
      (reconcileRun timeOf (getInitialDefectRegistry timeOf) c steps).1.length ≤
        MAX_DEFECT_REGISTRY_SIZE) := by
  have hinit : ∀ timeOf : String → Int,
      (getInitialDefectRegistry timeOf).length ≤ MAX_DEFECT_REGISTRY_SIZE := by
    intro timeOf
    unfold getInitialDefectRegistry
    rw [List.length_take, List.length_insertionSort]
    exact min_le_left _ _
  refine ⟨?_, hinit, ?_⟩
  · intro timeOf reg ls ts date c draws
    rw [update_fst]
    split
    next hgt =>
      rw [List.length_take]
      omega
    next hgt => omega
  · intro timeOf c steps
    rcases reconcileRun_length timeOf steps (getInitialDefectRegistry timeOf) c with
      h | h
    · exact h
    · rw [h]
      exact hinit timeOf

/-- C4: every registry returned by `updateDefectRegistryWithDetections`
satisfies the ordering invariant: timestamped entries precede untimestamped
ones, timestamped entries are in non-increasing `lastDetected` order, and
untimestamped entries are in non-increasing `detectedDate` order. -/
theorem ordering_spec (timeOf : String → Int) (reg : List DefectRegistryItem)
    (ls : LeakageDetection) (ts date : String) (c : Nat) (draws : List Nat) :
    ((updateDefectRegistryWithDetections timeOf reg ls ts date c draws).1).Pairwise
      (specOrdering timeOf) := by
  have hsorted : (reconcileSorted timeOf reg ls ts date c draws).Pairwise
      fun a b => compareDefects timeOf a b ≤ 0 := by
    unfold reconcileSorted
    letI : IsTotal DefectRegistryItem (fun a b => compareDefects timeOf a b ≤ 0) :=
      ⟨compareDefects_total timeOf⟩
    letI : IsTrans DefectRegistryItem (fun a b => compareDefects timeOf a b ≤ 0) :=
      ⟨compareDefects_trans timeOf⟩
    exact List.sorted_insertionSort _ _
  have h2 : (reconcileSorted timeOf reg ls ts date c draws).Pairwise
      (specOrdering timeOf) :=
    hsorted.imp fun h => compareDefects_specOrdering timeOf _ _ h
  rw [update_fst]
  split
  · exact List.Pairwise.sublist (List.take_sublist _ _) h2
  · exact h2

/-- C6: every entry the reconciler touches (creates or updates) gets its
status from its risk level (critical gives pending, warning gives progress,
low gives pending); entries not re-detected pass through unchanged, so
`resolved` is never produced by the reconciler itself. -/
theorem statusAssignment_spec (timeOf : String → Int)
    (reg : List DefectRegistryItem) (ls : LeakageDetection) (ts date : String)
    (c : Nat) (draws : List Nat) :
    (∀ f ∈ (updateDefectRegistryWithDetections timeOf reg ls ts date c draws).1,
      f ∈ reg ∨ f.status = autoStatus (getRiskLevel f.defectType).level) ∧
    autoStatus RiskLevel.critical = DefectStatus.pending ∧
    autoStatus RiskLevel.warning = DefectStatus.progress ∧
    autoStatus RiskLevel.low = DefectStatus.pending ∧
    (∀ f ∈ (updateDefectRegistryWithDetections timeOf reg ls ts date c draws).1,
      f.status = DefectStatus.resolved → f ∈ reg) := by
  have hmem : ∀ f ∈ (updateDefectRegistryWithDetections timeOf reg ls ts date c draws).1,
      f ∈ reg ∨ touchedFacts ts date f := by
    intro f hf
    exact foldProcess_mem ts date (buildLocationDefectMap ls)
      { registry := reg, counter := c, draws := draws } f
      (mem_of_mem_update timeOf reg ls ts date c draws f hf)
  refine ⟨fun f hf => (hmem f hf).imp id (fun h => h.2.2), rfl, rfl, rfl, ?_⟩
  intro f hf hres
  rcases hmem f hf with h | h
  · exact h
  · exfalso
    have hstat := h.2.2
    rw [hres] at hstat
    cases hlvl : (getRiskLevel f.defectType).level <;>
      rw [hlvl] at hstat <;> simp [autoStatus] at hstat

/-- Counterexample for C2: on the identical agreeing snapshot, the matched
entry keeps its id but its `detectedDate` is overwritten with the current
date, so `firstDetectedDate` is not preserved. -/
theorem idStability_counterexample :
    ((updateDefectRegistryWithDetections demoTime [demoEntry] demoAgreeSnapshot
        "5" "4" 100 [2]).1.map fun e => (e.id, e.detectedDate)) = [("X", "4")] ∧
    demoEntry.detectedDate = "1" ∧ ("4" : String) ≠ "1" ∧
    pairAppearsIn demoAgreeSnapshot.controlSystem.detections (itemPair demoEntry) ∧
    pairAppearsIn demoAgreeSnapshot.drone.detections (itemPair demoEntry) := by
  decide

/-- C2 (amended): on a registry with pairwise distinct `(location, defectType)`
pairs, re-detection never changes an entry's `id`; however every updated or
created entry has its `detectedDate` overwritten with the current date and its
`lastDetected` set to the current timestamp. -/
theorem idStability_amended (timeOf : String → Int)
    (reg : List DefectRegistryItem) (ls : LeakageDetection) (ts date : String)
    (c : Nat) (draws : List Nat) (hd : (reg.map itemPair).Nodup) :
    (∀ g ∈ reg,
      ∀ f ∈ (updateDefectRegistryWithDetections timeOf reg ls ts date c draws).1,
        itemPair f = itemPair g → f.id = g.id) ∧
    (∀ f ∈ (updateDefectRegistryWithDetections timeOf reg ls ts date c draws).1,
      f ∉ reg → f.detectedDate = date ∧ f.lastDetected = some ts) := by
  have hJ0 : ∀ g ∈ reg, ∀ f ∈ reg, itemPair f = itemPair g → f.id = g.id := by
    intro g hg f hf hfg
    rw [List.inj_on_of_nodup_map hd hf hg hfg]
  have hK0 : ∀ g ∈ reg, ∃ f ∈ reg, itemPair f = itemPair g :=
    fun g hg => ⟨g, hg, rfl⟩
  have hfold := foldProcess_id reg ts date (buildLocationDefectMap ls)
    { registry := reg, counter := c, draws := draws } hJ0 hK0
  constructor
  · intro g hg f hf hfg
    exact hfold.1 g hg f (mem_of_mem_update timeOf reg ls ts date c draws f hf) hfg
  · intro f hf hnmem
    rcases foldProcess_mem ts date (buildLocationDefectMap ls)
        { registry := reg, counter := c, draws := draws } f
        (mem_of_mem_update timeOf reg ls ts date c draws f hf) with h | h
    · exact absurd h hnmem
    · exact ⟨h.1, h.2.1⟩

/-- Witness for C2 (amended): concrete re-detection keeping the id `X`. -/
theorem idStability_amended_witness :
    (([demoEntry].map itemPair).Nodup) ∧
    (∀ g ∈ [demoEntry],
      ∀ f ∈ (updateDefectRegistryWithDetections demoTime [demoEntry]
          demoAgreeSnapshot "5" "4" 100 [2]).1,
        itemPair f = itemPair g → f.id = g.id) :=
  ⟨by decide, (idStability_amended demoTime [demoEntry] demoAgreeSnapshot
    "5" "4" 100 [2] (by decide)).1⟩

/-- C5: if the input registry has pairwise distinct `(location, defectType)`
pairs then so has the output registry; moreover every output entry is either
an unchanged input entry or carries the current timestamp, so repeating the
identical snapshot at a later time re-stamps the matched entry rather than
duplicating it. -/
theorem keyUniqueness_spec (timeOf : String → Int)
    (reg : List DefectRegistryItem) (ls : LeakageDetection) (ts date : String)
    (c : Nat) (draws : List Nat) (hd : (reg.map itemPair).Nodup) :
    ((updateDefectRegistryWithDetections timeOf reg ls ts date c draws).1.map
      itemPair).Nodup ∧
    (∀ f ∈ (updateDefectRegistryWithDetections timeOf reg ls ts date c draws).1,
      f ∈ reg ∨ (f.lastDetected = some ts ∧ f.detectedDate = date)) := by
  constructor
  · have h1 : ((reconcileState reg ls ts date c draws).registry.map itemPair).Nodup :=
      foldProcess_nodup ts date (buildLocationDefectMap ls)
        { registry := reg, counter := c, draws := draws } hd
    have h2 : ((reconcileSorted timeOf reg ls ts date c draws).map itemPair).Nodup := by
      have hp := (reconcileSorted_perm timeOf reg ls ts date c draws).map itemPair
      exact hp.nodup_iff.2 h1
    rw [update_fst]
    split
    · rw [List.map_take]
      exact List.Nodup.sublist (List.take_sublist _ _) h2
    · exact h2
  · intro f hf
    rcases foldProcess_mem ts date (buildLocationDefectMap ls)
        { registry := reg, counter := c, draws := draws } f
        (mem_of_mem_update timeOf reg ls ts date c draws f hf) with h | h
    · exact Or.inl h
    · exact Or.inr ⟨h.2.1, h.1⟩

/-- Witness for C5: a distinct-pair registry stays distinct, and two identical
snapshots at increasing times leave one entry whose `lastDetected` is the
later timestamp. -/
theorem keyUniqueness_spec_witness :
    ((demoRegistry15.map itemPair).Nodup) ∧
    (((updateDefectRegistryWithDetections demoTime demoRegistry15
        demoAgreeSnapshot "5" "4" 100 [2]).1.map itemPair).Nodup) ∧
    (((updateDefectRegistryWithDetections demoTime
        ((updateDefectRegistryWithDetections demoTime [] demoAgreeSnapshot
          "5" "4" 100 [2]).1) demoAgreeSnapshot "8" "7" 101 [3]).1.map
        fun e => (itemPair e, e.lastDetected)) =
      [((some "A", "t"), some "8")]) :=
  ⟨by decide,
   (keyUniqueness_spec demoTime demoRegistry15 demoAgreeSnapshot "5" "4" 100 [2]
     (by decide)).1,
   by decide⟩

/-- Counterexample for C1, in two parts.  First, key collision: the pair
`(A, B-T)` appears only in the control system, yet because its concatenated
grouping key `A-B-T` coincides with the key of the drone-only pair
`(A-B, T)`, a brand-new registry entry for `(A, B-T)` is created.  Second,
truncation: the pair of the oldest entry of a full 15-entry registry appears
only in the control system, and the entry is nevertheless dropped from the
output when an unrelated agreeing detection pushes the registry to 16. -/
theorem agreementGate_counterexample :
    (pairAppearsIn collisionSnapshot.controlSystem.detections (some "A", "B-T") ∧
     ¬ pairAppearsIn collisionSnapshot.drone.detections (some "A", "B-T") ∧
     ((updateDefectRegistryWithDetections demoTime [] collisionSnapshot
        "5" "4" 100 [2]).1.map itemPair) = [(some "A", "B-T")]) ∧
    (pairAppearsIn truncationSnapshot.controlSystem.detections
        (itemPair (mkDemoEntry 0)) ∧
     ¬ pairAppearsIn truncationSnapshot.drone.detections
        (itemPair (mkDemoEntry 0)) ∧
     mkDemoEntry 0 ∈ demoRegistry15 ∧
     mkDemoEntry 0 ∉ (updateDefectRegistryWithDetections demoTime demoRegistry15
        truncationSnapshot "99" "98" 100 [2]).1) := by
  decide

/-- C1 (amended): provided no two snapshot detections with distinct
`(location, defectType)` pairs share a concatenated grouping key, a pair
reported by only one of the two subsystems never causes an entry to be created
or modified: every output entry with that pair is an unchanged input entry,
and every input entry with that pair is either in the output unchanged or was
dropped, unchanged, by the truncation to 15 entries. -/
theorem agreementGate_amended (timeOf : String → Int)
    (reg : List DefectRegistryItem) (ls : LeakageDetection) (ts date : String)
    (c : Nat) (draws : List Nat) (p : Option String × String)
    (hkey : keyCollisionFree ls)
    (hsolo : (pairAppearsIn ls.controlSystem.detections p ∧
        ¬ pairAppearsIn ls.drone.detections p) ∨
      (pairAppearsIn ls.drone.detections p ∧
        ¬ pairAppearsIn ls.controlSystem.detections p)) :
    (∀ f ∈ (updateDefectRegistryWithDetections timeOf reg ls ts date c draws).1,
      itemPair f = p → f ∈ reg) ∧
    (∀ g ∈ reg, itemPair g = p →
      g ∈ (updateDefectRegistryWithDetections timeOf reg ls ts date c draws).1 ∨
      (updateDefectRegistryWithDetections timeOf reg ls ts date c draws).1.length =
        MAX_DEFECT_REGISTRY_SIZE) := by
  have hsourced := buildMap_sourced ls
  have hm : ∀ kv ∈ buildLocationDefectMap ls, ∀ cs dr,
      kv.2.controlSystem = some cs → kv.2.drone = some dr → detPair cs ≠ p := by
    intro kv hkv cs dr hcs hdr hp
    obtain ⟨hcsm, hcsk⟩ := (hsourced kv hkv).1 cs hcs
    obtain ⟨hdrm, hdrk⟩ := (hsourced kv hkv).2 dr hdr
    have hpair : detPair cs = detPair dr :=
      hkey cs (List.mem_append_left _ hcsm) dr (List.mem_append_right _ hdrm)
        (hcsk.trans hdrk.symm)
    rcases hsolo with ⟨_, hnd⟩ | ⟨_, hnc⟩
    · exact hnd ⟨dr, hdrm, hpair.symm.trans hp⟩
    · exact hnc ⟨cs, hcsm, hp⟩
  have hframe := foldProcess_pair_frame ts date p (buildLocationDefectMap ls)
    { registry := reg, counter := c, draws := draws } hm
  constructor
  · intro f hf hfp
    exact hframe.1 f (mem_of_mem_update timeOf reg ls ts date c draws f hf) hfp
  · intro g hg hgp
    exact mem_update_of_mem timeOf reg ls ts date c draws g (hframe.2 g hg hgp)

/-- Witness for C1 (amended): a collision-free snapshot reporting `(A, t)`
through the control system only leaves the registry entry for `(A, t)`
untouched. -/
theorem agreementGate_amended_witness :
    keyCollisionFree demoSoloSnapshot ∧
    pairAppearsIn demoSoloSnapshot.controlSystem.detections (some "A", "t") ∧
    ¬ pairAppearsIn demoSoloSnapshot.drone.detections (some "A", "t") ∧
    (∀ f ∈ (updateDefectRegistryWithDetections demoTime [demoEntry]
        demoSoloSnapshot "5" "4" 100 [2]).1,
      itemPair f = (some "A", "t") → f ∈ [demoEntry]) :=
  ⟨by decide, by decide, by decide,
   (agreementGate_amended demoTime [demoEntry] demoSoloSnapshot "5" "4" 100 [2]
     (some "A", "t") (by decide) (Or.inl ⟨by decide, by decide⟩)).1⟩

theorem defectsWithBoth_no_md (k : Nat) :
    (defectsWithBothSystems.getD (k % defectsWithBothSystems.length)
      emptyScenario).type ≠ "Mechanical Damage" := by
  have hl : defectsWithBothSystems.length = 5 := by decide
  rw [hl]
  have h : k % 5 = 0 ∨ k % 5 = 1 ∨ k % 5 = 2 ∨ k % 5 = 3 ∨ k % 5 = 4 := by omega
  rcases h with h | h | h | h | h <;> rw [h] <;> decide

/-- C9: the synthetic generator either returns the all-ok empty snapshot, or
it produces 1-3 detection pairs in which the control system and the drone get
the same defect type and the same location; a defect type lacking signatures
for either subsystem (Mechanical Damage) never appears; and in every generated
snapshot each subsystem's status is `detected` exactly when its detection list
is non-empty. -/
theorem generator_spec (r : GenDraws) :
    ((generateLeakageStatus r).controlSystem.status = SysStatus.detected ↔
      (generateLeakageStatus r).controlSystem.detections ≠ []) ∧
    ((generateLeakageStatus r).drone.status = SysStatus.detected ↔
      (generateLeakageStatus r).drone.detections ≠ []) ∧
    (generateLeakageStatus r =
      { controlSystem := { status := .ok, detections := [] },
        drone := { status := .ok, detections := [] }, totalLeakages := 0 } ∨
     ∃ ps : List (DefectDetection × DefectDetection),
        (generateLeakageStatus r).controlSystem.detections = ps.map Prod.fst ∧
        (generateLeakageStatus r).drone.detections = ps.map Prod.snd ∧
        1 ≤ ps.length ∧ ps.length ≤ 3 ∧
        (∀ q ∈ ps, q.1.defectType = q.2.defectType ∧
          q.1.location = q.2.location) ∧
        (∀ d ∈ allDetections (generateLeakageStatus r),
          d.defectType ≠ "Mechanical Damage")) := by
  by_cases hI : r.hasIssue = true
  · have hg : generateLeakageStatus r =
        { controlSystem :=
            { status := if (((List.range (r.numDraw % 3 + 1)).map
                (genPairAt r)).map Prod.fst).length > 0 then .detected else .ok,
              detections :=
                ((List.range (r.numDraw % 3 + 1)).map (genPairAt r)).map Prod.fst },
          drone :=
            { status := if (((List.range (r.numDraw % 3 + 1)).map
                (genPairAt r)).map Prod.snd).length > 0 then .detected else .ok,
              detections :=
                ((List.range (r.numDraw % 3 + 1)).map (genPairAt r)).map Prod.snd },
          totalLeakages := r.numDraw % 3 + 1 } := by
      unfold generateLeakageStatus
      rw [hI]
      simp only [Bool.not_true, Bool.false_eq_true, if_false]
    rw [hg]
    have hlen : ((List.range (r.numDraw % 3 + 1)).map (genPairAt r)).length =
        r.numDraw % 3 + 1 := by
      rw [List.length_map, List.length_range]
    have hpos1 : (((List.range (r.numDraw % 3 + 1)).map (genPairAt r)).map
        Prod.fst).length > 0 := by
      rw [List.length_map]; omega
    have hpos2 : (((List.range (r.numDraw % 3 + 1)).map (genPairAt r)).map
        Prod.snd).length > 0 := by
      rw [List.length_map]; omega
    have hne1 : ((List.range (r.numDraw % 3 + 1)).map (genPairAt r)).map
        Prod.fst ≠ [] :=
      List.length_pos.1 hpos1
    have hne2 : ((List.range (r.numDraw % 3 + 1)).map (genPairAt r)).map
        Prod.snd ≠ [] :=
      List.length_pos.1 hpos2
    refine ⟨?_, ?_, Or.inr ⟨(List.range (r.numDraw % 3 + 1)).map (genPairAt r),
      rfl, rfl, by omega, by rw [hlen]; omega, ?_, ?_⟩⟩
    · simp only [if_pos hpos1]
      exact iff_of_true trivial hne1
    · simp only [if_pos hpos2]
      exact iff_of_true trivial hne2
    · intro q hq
      obtain ⟨i, _, rfl⟩ := List.mem_map.1 hq
      exact ⟨rfl, rfl⟩
    · intro d hd
      rcases List.mem_append.1 hd with h | h
      · obtain ⟨q, hq, rfl⟩ := List.mem_map.1 h
        obtain ⟨i, _, rfl⟩ := List.mem_map.1 hq
        exact defectsWithBoth_no_md (r.scenarioDraw i)
      · obtain ⟨q, hq, rfl⟩ := List.mem_map.1 h
        obtain ⟨i, _, rfl⟩ := List.mem_map.1 hq
        exact defectsWithBoth_no_md (r.scenarioDraw i)
  · have hI2 : r.hasIssue = false := by
      revert hI
      cases r.hasIssue <;> simp
    have hg : generateLeakageStatus r =
        { controlSystem := { status := .ok, detections := [] },
          drone := { status := .ok, detections := [] }, totalLeakages := 0 } := by
      unfold generateLeakageStatus
      rw [hI2]
      rfl
    rw [hg]
    refine ⟨?_, ?_, Or.inl rfl⟩ <;> simp

/-- Counterexample for C10: an unauthorized (401) response and a server-error
(500) response with the same status text produce the identical generic error
value, so the unauthorized failure is not distinguishable from other failure
kinds. -/
theorem unauthorizedError_counterexample :
    DetectionService.getLeakageStatus
        ({ status := 401, statusText := "", body := () } :
          DetectionService.HttpResponse Unit) =
      DetectionService.getLeakageStatus
        ({ status := 500, statusText := "", body := () } :
          DetectionService.HttpResponse Unit) ∧
    DetectionService.getLeakageStatus
        ({ status := 401, statusText := "", body := () } :
          DetectionService.HttpResponse Unit) =
      Except.error "Failed to fetch leakage status: " :=
  ⟨rfl, rfl⟩

/-- C10 (amended): every non-ok response, the unauthorized one included, makes
`DetectionService.getLeakageStatus` fail with the one generic error message
built from the response status text; no distinguishable Unauthorized error
kind exists. -/
theorem genericError_amended {α : Type} (r : DetectionService.HttpResponse α)
    (h : DetectionService.responseOk r = false) :
    DetectionService.getLeakageStatus r =
      Except.error ("Failed to fetch leakage status: " ++ r.statusText) := by
  unfold DetectionService.getLeakageStatus
  rw [h]
  rfl

/-- Witness for C10 (amended): the generic error on a concrete 404 response. -/
theorem genericError_amended_witness :
    DetectionService.responseOk
        ({ status := 404, statusText := "Not Found", body := () } :
          DetectionService.HttpResponse Unit) = false ∧
    DetectionService.getLeakageStatus
        ({ status := 404, statusText := "Not Found", body := () } :
          DetectionService.HttpResponse Unit) =
      Except.error ("Failed to fetch leakage status: " ++ "Not Found") :=
  ⟨by decide, genericError_amended _ (by decide)⟩

end GasLeak
